import Mathlib

/- Verification of the typed-column factory of the ClickHouse client core
   (src/types/column/factory.rs): classification of textual type
   descriptors and construction of column data.

   Modelling conventions:
   * Rust `&str` values are modelled as `List Char`.  All descriptor text
     relevant here is ASCII, where Rust byte indexing/slicing coincides
     with character indexing, so `&s[a..b]` is modelled by
     `(s.drop a).take (b - a)` guarded by the bounds check that Rust
     performs (an out-of-bounds slice panics).
   * Whitespace (`char::is_whitespace`, used by `str::trim` and by the
     `combine` crate's `spaces()`) is modelled on its ASCII fragment
     (tab, LF, VT, FF, CR, space).
   * A Rust computation that can panic is given the result type `RustRes`;
     `RustRes.panicked` marks an abort. -/

namespace Factory

/-- Result of a Rust computation that may abort with a panic (here: an
out-of-bounds string slice or a failed `unwrap`). -/
inductive RustRes (α : Type) where
  | panicked
  | ok (val : α)
deriving DecidableEq

/-- Shorthand: the character list of a string literal. -/
def str (s : String) : List Char := s.toList

/-- The single-quote character (ASCII 39). -/
def quoteChar : Char := Char.ofNat 39

/-- The backslash character (ASCII 92). -/
def backslashChar : Char := Char.ofNat 92

/-- ASCII fragment of Rust `char::is_whitespace` (tab, LF, VT, FF, CR,
space), as used by `str::trim` and by `combine`'s `spaces()`. -/
def isWhite (c : Char) : Bool := c = ' ' || (9 ≤ c.toNat && c.toNat ≤ 13)

/-- Rust `u8::to_ascii_lowercase` on a character. -/
def asciiLower (c : Char) : Char :=
  if 'A' ≤ c && c ≤ 'Z' then Char.ofNat (c.toNat + 32) else c

/-- Rust `str::eq_ignore_ascii_case`. -/
def eqIgnoreAsciiCase (a b : List Char) : Bool :=
  a.map asciiLower == b.map asciiLower

/-- Rust `str::trim` (both ends, whitespace). -/
def trimChars (s : List Char) : List Char :=
  ((s.dropWhile isWhite).reverse.dropWhile isWhite).reverse

/-- Rust `str::split(',')`: splitting an empty string yields one empty
piece, and every comma separates two (possibly empty) pieces. -/
def splitComma : List Char → List (List Char)
  | [] => [[]]
  | c :: rest =>
    if c = ',' then [] :: splitComma rest
    else
      match splitComma rest with
      | [] => [[c]]
      | piece :: pieces => (c :: piece) :: pieces

/-- Numeric value of an ASCII decimal digit. -/
def digitVal (c : Char) : Option Nat :=
  if '0' ≤ c && c ≤ '9' then some (c.toNat - 48) else none

/-- Accumulate the value of a digit string; `none` on a non-digit. -/
def digitsValAux : List Char → Nat → Option Nat
  | [], acc => some acc
  | c :: rest, acc =>
    match digitVal c with
    | none => none
    | some d => digitsValAux rest (acc * 10 + d)

/-- Rust `str::parse` for an unsigned integer type with maximal value
`bound` (`u8`: 255, `usize`: 2^64 - 1): an optional leading `+` sign,
then one or more ASCII digits, rejecting values above `bound`. -/
def parseUnsignedRust (bound : Nat) (s : List Char) : Option Nat :=
  let digits := match s with
    | '+' :: rest => rest
    | _ => s
  match digits with
  | [] => none
  | _ =>
    match digitsValAux digits 0 with
    | none => none
    | some v => if v ≤ bound then some v else none

/-- Rust `str::parse::<u8>`. -/
def parseU8 (s : List Char) : Option Nat := parseUnsignedRust 255 s

/-- Rust `str::parse::<usize>` (64-bit target). -/
def parseUsize (s : List Char) : Option Nat := parseUnsignedRust (2 ^ 64 - 1) s

/-- Decimal digit characters of a natural number (auxiliary, fuelled). -/
def natCharsAux : Nat → Nat → List Char → List Char
  | 0, _, acc => acc
  | fuel + 1, n, acc =>
    let d := Char.ofNat (48 + n % 10)
    if n < 10 then d :: acc else natCharsAux fuel (n / 10) (d :: acc)

/-- Decimal digit characters of a natural number, e.g. `natChars 18`
is the character list of the string `18`. -/
def natChars (n : Nat) : List Char := natCharsAux (n + 1) n []

/-- Translation of `parse_fixed_string` (factory.rs:172-182): a bare
`starts_with("FixedString")` test, then the fixed byte slice
`&source[12..source.len() - 1]`, which Rust checks for bounds
(`12 ≤ len - 1`, i.e. `len ≥ 13`; a shorter source panics), then
`inner_size.parse::<usize>()`. -/
def parse_fixed_string (source : List Char) : RustRes (Option Nat) :=
  if ¬ (str "FixedString").isPrefixOf source then .ok none
  else if source.length < 13 then .panicked
  else
    let inner_size := (source.drop 12).take (source.length - 1 - 12)
    match parseUsize inner_size with
    | none => .ok none
    | some value => .ok (some value)

/-- Translation of `parse_nullable_type` (factory.rs:184-196): a bare
`starts_with("Nullable")` test, then the fixed byte slice
`&source[9..source.len() - 1]` (bounds check `len ≥ 10`; shorter
sources panic), then rejection when the inner text itself starts with
`Nullable`. -/
def parse_nullable_type (source : List Char) : RustRes (Option (List Char)) :=
  if ¬ (str "Nullable").isPrefixOf source then .ok none
  else if source.length < 10 then .panicked
  else
    let inner_type := (source.drop 9).take (source.length - 1 - 9)
    if (str "Nullable").isPrefixOf inner_type then .ok none
    else .ok (some inner_type)

/-- Translation of `parse_array_type` (factory.rs:198-205): a bare
`starts_with("Array")` test, then the fixed byte slice
`&source[6..source.len() - 1]` (bounds check `len ≥ 7`; shorter
sources panic). -/
def parse_array_type (source : List Char) : RustRes (Option (List Char)) :=
  if ¬ (str "Array").isPrefixOf source then .ok none
  else if source.length < 7 then .panicked
  else
    let inner_type := (source.drop 6).take (source.length - 1 - 6)
    .ok (some inner_type)

/-- Backing-integer width of a decimal column (types/decimal.rs). -/
inductive NoBits where
  | N32
  | N64
deriving DecidableEq

/-- Modelled from the spec: `NoBits::from_precision` lives in
types/decimal.rs, which is not part of the sources here.  Per the spec,
precision 1-9 maps to a 32-bit backing integer, 10-18 to 64-bit, and any
other precision is unsupported. -/
def NoBits.from_precision (precision : Nat) : Option NoBits :=
  if 1 ≤ precision && precision ≤ 9 then some NoBits.N32
  else if 10 ≤ precision && precision ≤ 18 then some NoBits.N64
  else none

/-- Scanning loop of `parse_decimal` (factory.rs:222-239): walk the
bytes of `source`; at `(` the preceding prefix must be exactly
`Decimal`, `Decimal32` or `Decimal64` (the latter two fix the backing
width), anything else aborts the whole parse; record the index of the
`(` and of the last `)`. -/
def decimalScan (source : List Char) :
    List Char → Nat → Option NoBits → Option Nat × Option Nat →
    Option (Option NoBits × (Option Nat × Option Nat))
  | [], _, nobits, params_indexes => some (nobits, params_indexes)
  | c :: rest, idx, nobits, (pstart, pend) =>
    if c = '(' then
      let before := source.take idx
      if before = str "Decimal" then
        decimalScan source rest (idx + 1) nobits (some idx, pend)
      else if before = str "Decimal32" then
        decimalScan source rest (idx + 1) (some NoBits.N32) (some idx, pend)
      else if before = str "Decimal64" then
        decimalScan source rest (idx + 1) (some NoBits.N64) (some idx, pend)
      else none
    else if c = ')' then
      decimalScan source rest (idx + 1) nobits (pstart, some idx)
    else
      decimalScan source rest (idx + 1) nobits (pstart, pend)

/-- Parameter loop of `parse_decimal` (factory.rs:254-267): the cells of
the comma-split parameter text, each trimmed, fill `precision` (index 0)
then `scale` (index 1); a third cell aborts the parse. -/
def decimalParams : List (List Char) → Nat → Option Nat → Option Nat →
    Option (Option Nat × Option Nat)
  | [], _, precision, scale => some (precision, scale)
  | cell :: rest, idx, precision, scale =>
    if idx = 0 then decimalParams rest (idx + 1) (parseU8 (trimChars cell)) scale
    else if idx = 1 then decimalParams rest (idx + 1) precision (parseU8 (trimChars cell))
    else none

/-- Translation of `parse_decimal` (factory.rs:207-291).  Sources of
length below 12 or without the `Decimal` prefix are rejected; the scan
locates the parameter parentheses; with an explicit width
(`Decimal32`/`Decimal64`) the whole parameter text parses as the scale,
otherwise the comma-split cells give precision and scale; finally
`scale > precision` is rejected and the width is derived from the
precision (two-parameter form), while `Decimal32`/`Decimal64` imply
precision 9/18 with no constraint on the scale. -/
def parse_decimal (source : List Char) : Option (Nat × Nat × NoBits) :=
  if source.length < 12 then none
  else if ¬ (str "Decimal").isPrefixOf source then none
  else
    match decimalScan source source 0 none (none, none) with
    | none => none
    | some (nobits, params_indexes) =>
      match params_indexes with
      | (some pstart, some pend) =>
        let inner := (source.drop (pstart + 1)).take (pend - (pstart + 1))
        let assigned : Option (Option Nat × Option Nat) :=
          match nobits with
          | some _ => some (none, parseU8 inner)
          | none => decimalParams (splitComma inner) 0 none none
        match assigned with
        | none => none
        | some (precision?, scale?) =>
          match precision?, scale?, nobits with
          | some precision, some scale, none =>
            if scale > precision then none
            else
              match NoBits.from_precision precision with
              | some nobits => some (precision, scale, nobits)
              | none => none
          | none, some scale, some bits =>
            let precision := match bits with
              | NoBits.N32 => 9
              | NoBits.N64 => 18
            some (precision, scale, bits)
          | _, _, _ => none
      | _ => none

/-- Width selector of the enum grammar (factory.rs:293-296). -/
inductive EnumSize where
  | Enum8
  | Enum16
deriving DecidableEq

/-- Drop leading whitespace: `combine`'s `spaces()`. -/
def skipSpaces (s : List Char) : List Char := s.dropWhile isWhite

/-- Consume a literal keyword: `combine`'s `string(size)`. -/
def stripKeyword (kw : List Char) (s : List Char) : Option (List Char) :=
  if kw.isPrefixOf s then some (s.drop kw.length) else none

/-- Greedily split off leading ASCII digits: `many1(digit())` (the
caller rejects an empty digit list). -/
def spanDigits : List Char → List Char × List Char
  | [] => ([], [])
  | c :: rest =>
    if '0' ≤ c && c ≤ '9' then
      let (ds, rem) := spanDigits rest
      (c :: ds, rem)
    else ([], c :: rest)

/-- The `integer` parser of `parse_enum` (factory.rs:320-329):
`optional(token('-')).and(many1(digit()))`, the digits (with the sign
prepended) then parsed as `i16`, whose range check rejects values
outside `[-32768, 32767]`. -/
def parseEnumInteger (input : List Char) : Option (Int × List Char) :=
  let (neg, afterSign) := match input with
    | '-' :: rest => (true, rest)
    | _ => (false, input)
  match spanDigits afterSign with
  | ([], _) => none
  | (digits, rem) =>
    match digitsValAux digits 0 with
    | none => none
    | some n =>
      let v : Int := if neg then -(n : Int) else (n : Int)
      if -32768 ≤ v && v ≤ 32767 then some (v, rem) else none

/-- Iterated `word_syms` parser, i.e. `many(word_syms)` where
`word_syms` is the escape-or-plain character parser of factory.rs:331: stop
without consuming at an unescaped quote or at the end of input; a
backslash consumes the following character unconditionally, and a
trailing backslash is a consumed failure that aborts the word. -/
def parseWordSyms : List Char → Option (List Char × List Char)
  | [] => some ([], [])
  | c :: rest =>
    if c = backslashChar then
      match rest with
      | [] => none
      | e :: rest2 =>
        match parseWordSyms rest2 with
        | none => none
        | some (w, rem) => some (e :: w, rem)
    else if c = quoteChar then some ([], c :: rest)
    else
      match parseWordSyms rest with
      | none => none
      | some (w, rem) => some (c :: w, rem)

/-- The `word` parser (factory.rs:332): an opening quote, the escaped
word symbols, and a closing quote. -/
def parseWord (input : List Char) : Option (List Char × List Char) :=
  match input with
  | c :: rest =>
    if c = quoteChar then
      match parseWordSyms rest with
      | none => none
      | some (w, rem) =>
        match rem with
        | c2 :: rem2 => if c2 = quoteChar then some (w, rem2) else none
        | [] => none
    else none
  | [] => none

/-- The `pair` parser (factory.rs:334-340): optional whitespace, a
quoted name, optional whitespace, `=`, optional whitespace, a signed
16-bit integer, optional trailing whitespace. -/
def parsePair (input : List Char) : Option ((List Char × Int) × List Char) :=
  match parseWord (skipSpaces input) with
  | none => none
  | some (w, r) =>
    match skipSpaces r with
    | '=' :: r2 =>
      match parseEnumInteger (skipSpaces r2) with
      | none => none
      | some (v, r3) => some ((w, v), skipSpaces r3)
    | _ => none

/-- Loop of `sep_by1(pair, token(','))` (factory.rs:341) after the first
pair: each comma must be followed by a full pair (a comma whose pair
fails is a consumed failure that aborts the whole parse).  The fuel is
the input length; every iteration consumes at least the comma, so the
fuel never runs out. -/
def parseBodyRest : Nat → List Char → Option (List (List Char × Int) × List Char)
  | 0, input =>
    match input with
    | ',' :: _ => none
    | _ => some ([], input)
  | fuel + 1, input =>
    match input with
    | ',' :: rest =>
      match parsePair rest with
      | none => none
      | some (p, rem) =>
        match parseBodyRest fuel rem with
        | none => none
        | some (ps, rem2) => some (p :: ps, rem2)
    | _ => some ([], input)

/-- The whole enum parser of `parse_enum` (factory.rs:343-349):
`spaces().with(string(size)).skip(spaces()).skip(token('(')).skip(spaces())
.with(enum_body).skip(token(')'))`, returning the pair list and the
unconsumed remainder. -/
def parseEnumCore (keyword : List Char) (input : List Char) :
    Option (List (List Char × Int) × List Char) :=
  match stripKeyword keyword (skipSpaces input) with
  | none => none
  | some r1 =>
    match skipSpaces r1 with
    | '(' :: r2 =>
      match parsePair (skipSpaces r2) with
      | none => none
      | some (p, rem) =>
        match parseBodyRest rem.length rem with
        | none => none
        | some (ps, rem2) =>
          match rem2 with
          | ')' :: rem3 => some (p :: ps, rem3)
          | _ => none
    | _ => none

/-- Translation of `parse_enum` (factory.rs:314-359): run the grammar
for the requested keyword and reject any leftover input after the
closing parenthesis. -/
def parse_enum (size : EnumSize) (input : List Char) :
    Option (List (List Char × Int)) :=
  let keyword := match size with
    | EnumSize.Enum8 => str "Enum8"
    | EnumSize.Enum16 => str "Enum16"
  match parseEnumCore keyword input with
  | none => none
  | some (res, remain) => if remain = [] then some res else none

/-- Rust `i16 as i8`: two's-complement truncation to 8 bits. -/
def wrapI8 (v : Int) : Int := (v + 128) % 256 - 128

/-- Translation of `parse_enum8` (factory.rs:298-309): the Enum8 grammar
result with every value narrowed by `*val as i8`. -/
def parse_enum8 (input : List Char) : Option (List (List Char × Int)) :=
  match parse_enum EnumSize.Enum8 input with
  | some result => some (result.map fun p => (p.1, wrapI8 p.2))
  | none => none

/-- Translation of `parse_enum16` (factory.rs:310-312). -/
def parse_enum16 (input : List Char) : Option (List (List Char × Int)) :=
  parse_enum EnumSize.Enum16 input

/-- Rust `Result<T, E>`. -/
inductive Res (α ε : Type) where
  | ok (val : α)
  | err (e : ε)
deriving DecidableEq

/-- The only error `load_data` itself constructs (factory.rs:87-88):
the `Unsupported column type "…"` message raised when a descriptor
matches no rule.  Read failures of the byte source are propagated
unchanged by `?` and belong to the byte-source boundary, outside this
classification model. -/
inductive ColumnError where
  | unsupportedColumnType (type_name : List Char)
deriving DecidableEq

/-- Concrete column implementation selected by `load_data`
(factory.rs:55-85), one constructor per dispatch arm.  The bulk-load of
the selected implementation reads from the byte source in code outside
the sources here; the dispatch target together with the parsed
parameters is what classification determines. -/
inductive ColumnDispatch where
  | vectorU8
  | vectorU16
  | vectorU32
  | vectorU64
  | vectorI8
  | vectorI16
  | vectorI32
  | vectorI64
  | vectorF32
  | vectorF64
  | stringColumn
  | dateColumn
  | dateTimeColumn
  | ipv4Column
  | ipv6Column
  | uuidColumn
  | nullableColumn (inner_type : List Char)
  | fixedStringColumn (str_len : Nat)
  | arrayColumn (inner_type : List Char)
  | decimalColumn (precision : Nat) (scale : Nat) (nobits : NoBits)
  | enum8Column (items : List (List Char × Int))
  | enum16Column (items : List (List Char × Int))
deriving DecidableEq

/-- The `match_str!` macro of factory.rs:31-45, as instantiated in
`load_data` (factory.rs:54-70): a chain of `eq_ignore_ascii_case` tests
against the primitive vocabulary, first match wins; `none` falls
through to the composite rules of the macro's fallback arm. -/
def match_str (type_name : List Char) : Option ColumnDispatch :=
  if eqIgnoreAsciiCase type_name (str "UInt8") then some .vectorU8
  else if eqIgnoreAsciiCase type_name (str "UInt16") then some .vectorU16
  else if eqIgnoreAsciiCase type_name (str "UInt32") then some .vectorU32
  else if eqIgnoreAsciiCase type_name (str "UInt64") then some .vectorU64
  else if eqIgnoreAsciiCase type_name (str "Int8") then some .vectorI8
  else if eqIgnoreAsciiCase type_name (str "Int16") then some .vectorI16
  else if eqIgnoreAsciiCase type_name (str "Int32") then some .vectorI32
  else if eqIgnoreAsciiCase type_name (str "Int64") then some .vectorI64
  else if eqIgnoreAsciiCase type_name (str "Float32") then some .vectorF32
  else if eqIgnoreAsciiCase type_name (str "Float64") then some .vectorF64
  else if eqIgnoreAsciiCase type_name (str "String") then some .stringColumn
  else if eqIgnoreAsciiCase type_name (str "Date") then some .dateColumn
  else if eqIgnoreAsciiCase type_name (str "DateTime") then some .dateTimeColumn
  else if eqIgnoreAsciiCase type_name (str "IPv4") then some .ipv4Column
  else if eqIgnoreAsciiCase type_name (str "IPv6") then some .ipv6Column
  else if eqIgnoreAsciiCase type_name (str "UUID") then some .uuidColumn
  else none

/-- Translation of the classification and dispatch of `load_data`
(factory.rs:48-92): the `match_str!` chain over the primitive
vocabulary, whose fallback arm tries the composite rules in order
(`Nullable`, `FixedString`, `Array`, `Decimal`, `Enum8`, `Enum16`) and
otherwise raises the `Unsupported column type` error. -/
def load_data (type_name : List Char) : RustRes (Res ColumnDispatch ColumnError) :=
  match match_str type_name with
  | some dispatch => .ok (.ok dispatch)
  | none =>
    match parse_nullable_type type_name with
    | .panicked => .panicked
    | .ok (some inner_type) => .ok (.ok (.nullableColumn inner_type))
    | .ok none =>
      match parse_fixed_string type_name with
      | .panicked => .panicked
      | .ok (some str_len) => .ok (.ok (.fixedStringColumn str_len))
      | .ok none =>
        match parse_array_type type_name with
        | .panicked => .panicked
        | .ok (some inner_type) => .ok (.ok (.arrayColumn inner_type))
        | .ok none =>
          match parse_decimal type_name with
          | some (precision, scale, nobits) =>
            .ok (.ok (.decimalColumn precision scale nobits))
          | none =>
            match parse_enum8 type_name with
            | some items => .ok (.ok (.enum8Column items))
            | none =>
              match parse_enum16 type_name with
              | some items => .ok (.ok (.enum16Column items))
              | none => .ok (.err (.unsupportedColumnType type_name))

/-- Timezone context (chrono_tz::Tz at the boundary); its identity is
irrelevant to the factory, which only stores and forwards it. -/
structure Tz where
  id : Nat
deriving DecidableEq

/-- The canonical type model `SqlType` (precision and scale are `u8` in
the source; enum mappings carry `i8`/`i16` codes). -/
inductive SqlType where
  | uint8
  | uint16
  | uint32
  | uint64
  | int8
  | int16
  | int32
  | int64
  | string
  | fixedString (len : Nat)
  | float32
  | float64
  | ipv4
  | ipv6
  | uuid
  | date
  | dateTime
  | nullable (inner : SqlType)
  | array (inner : SqlType)
  | decimal (precision : Nat) (scale : Nat)
  | enum8 (values : List (List Char × Int))
  | enum16 (values : List (List Char × Int))
deriving DecidableEq

/-- In-memory column representations built by `from_type`
(factory.rs:99-168), one constructor per arm.  Modelled from the spec:
the `with_capacity` constructors of the concrete column types live
outside the sources here and, per the spec, allocate an empty column
with the given reserved capacity (and timezone for date columns);
composite columns hold their freshly built inner column plus empty
auxiliary state. -/
inductive ColumnData where
  | vectorU8 (capacity : Nat)
  | vectorU16 (capacity : Nat)
  | vectorU32 (capacity : Nat)
  | vectorU64 (capacity : Nat)
  | vectorI8 (capacity : Nat)
  | vectorI16 (capacity : Nat)
  | vectorI32 (capacity : Nat)
  | vectorI64 (capacity : Nat)
  | vectorF32 (capacity : Nat)
  | vectorF64 (capacity : Nat)
  | stringColumn (capacity : Nat)
  | fixedStringColumn (capacity : Nat) (len : Nat)
  | ipv4Column (capacity : Nat)
  | ipv6Column (capacity : Nat)
  | uuidColumn (capacity : Nat)
  | dateColumn (capacity : Nat) (timezone : Tz)
  | dateTimeColumn (capacity : Nat) (timezone : Tz)
  | nullableColumn (inner : ColumnData) (nulls : List Nat)
  | arrayColumn (inner : ColumnData) (offsets : List Nat)
  | decimalColumn (inner : ColumnData) (precision : Nat) (scale : Nat) (nobits : NoBits)
  | enum8Column (values : List (List Char × Int)) (inner : ColumnData)
  | enum16Column (values : List (List Char × Int)) (inner : ColumnData)
deriving DecidableEq

/-- Termination measure for `from_type`: the decimal and enum arms
recurse into the primitive backing type, which this measure makes
smaller. -/
def SqlType.mea : SqlType → Nat
  | .nullable t => t.mea + 1
  | .array t => t.mea + 1
  | .decimal _ _ => 2
  | .enum8 _ => 2
  | .enum16 _ => 2
  | _ => 1

/-- Translation of `from_type` (factory.rs:94-169): build an empty
column with reserved capacity for a canonical type.  The decimal arm
calls `NoBits::from_precision(precision).unwrap()`, which panics when
the precision has no backing width; the composite arms recurse with the
same capacity and propagate failure with `?`. -/
def from_type (sql_type : SqlType) (timezone : Tz) (capacity : Nat) :
    RustRes (Res ColumnData ColumnError) :=
  match sql_type with
  | .uint8 => .ok (.ok (.vectorU8 capacity))
  | .uint16 => .ok (.ok (.vectorU16 capacity))
  | .uint32 => .ok (.ok (.vectorU32 capacity))
  | .uint64 => .ok (.ok (.vectorU64 capacity))
  | .int8 => .ok (.ok (.vectorI8 capacity))
  | .int16 => .ok (.ok (.vectorI16 capacity))
  | .int32 => .ok (.ok (.vectorI32 capacity))
  | .int64 => .ok (.ok (.vectorI64 capacity))
  | .string => .ok (.ok (.stringColumn capacity))
  | .fixedString len => .ok (.ok (.fixedStringColumn capacity len))
  | .float32 => .ok (.ok (.vectorF32 capacity))
  | .float64 => .ok (.ok (.vectorF64 capacity))
  | .ipv4 => .ok (.ok (.ipv4Column capacity))
  | .ipv6 => .ok (.ok (.ipv6Column capacity))
  | .uuid => .ok (.ok (.uuidColumn capacity))
  | .date => .ok (.ok (.dateColumn capacity timezone))
  | .dateTime => .ok (.ok (.dateTimeColumn capacity timezone))
  | .nullable inner_type =>
    match from_type inner_type timezone capacity with
    | .panicked => .panicked
    | .ok (.err e) => .ok (.err e)
    | .ok (.ok inner) => .ok (.ok (.nullableColumn inner []))
  | .array inner_type =>
    match from_type inner_type timezone capacity with
    | .panicked => .panicked
    | .ok (.err e) => .ok (.err e)
    | .ok (.ok inner) => .ok (.ok (.arrayColumn inner []))
  | .decimal precision scale =>
    match NoBits.from_precision precision with
    | none => .panicked
    | some nobits =>
      let inner_type := match nobits with
        | NoBits.N32 => SqlType.int32
        | NoBits.N64 => SqlType.int64
      match from_type inner_type timezone capacity with
      | .panicked => .panicked
      | .ok (.err e) => .ok (.err e)
      | .ok (.ok inner) => .ok (.ok (.decimalColumn inner precision scale nobits))
  | .enum8 enum_values =>
    match from_type SqlType.int8 timezone capacity with
    | .panicked => .panicked
    | .ok (.err e) => .ok (.err e)
    | .ok (.ok inner) => .ok (.ok (.enum8Column enum_values inner))
  | .enum16 enum_values =>
    match from_type SqlType.int16 timezone capacity with
    | .panicked => .panicked
    | .ok (.err e) => .ok (.err e)
    | .ok (.ok inner) => .ok (.ok (.enum16Column enum_values inner))
termination_by sql_type.mea
decreasing_by
  all_goals simp [SqlType.mea]
  all_goals cases nobits <;> simp [SqlType.mea]

/-- The two-parameter decimal descriptor `Decimal(p,s)` (with the
parameters printed in decimal notation, no extra whitespace). -/
def desc2 (p s : Nat) : List Char :=
  str "Decimal(" ++ natChars p ++ str "," ++ natChars s ++ str ")"

/-- The three-parameter decimal descriptor `Decimal(p,s,t)`. -/
def desc3 (p s t : Nat) : List Char :=
  str "Decimal(" ++ natChars p ++ str "," ++ natChars s ++ str ","
    ++ natChars t ++ str ")"

/-- The single-parameter descriptor `Decimal32(s)`. -/
def desc32 (s : Nat) : List Char := str "Decimal32(" ++ natChars s ++ str ")"

/-- The single-parameter descriptor `Decimal64(s)`. -/
def desc64 (s : Nat) : List Char := str "Decimal64(" ++ natChars s ++ str ")"

/-- Whether every `Decimal` node of a canonical type carries a precision
with a backing width — the side condition under which `from_type`'s
`NoBits::from_precision(precision).unwrap()` cannot panic. -/
def SqlType.decimalsSupported : SqlType → Bool
  | .nullable inner => inner.decimalsSupported
  | .array inner => inner.decimalsSupported
  | .decimal precision _ => (NoBits.from_precision precision).isSome
  | _ => true

/- Helper lemmas: behaviour of the decimal scanning loop on structured
input, facts about printed numerals, and splitting/trimming. -/

lemma decimalScan_append (source l1 l2 : List Char) (idx : Nat) (nb : Option NoBits)
    (st : Option Nat × Option Nat) :
    decimalScan source (l1 ++ l2) idx nb st =
      match decimalScan source l1 idx nb st with
      | none => none
      | some (nb2, st2) => decimalScan source l2 (idx + l1.length) nb2 st2 := by
  induction l1 generalizing idx nb st with
  | nil => simp [decimalScan]
  | cons c rest ih =>
    obtain ⟨p0, p1⟩ := st
    have harith : idx + 1 + rest.length = idx + (rest.length + 1) := by omega
    simp only [List.cons_append, decimalScan, List.length_cons]
    split_ifs <;> simp only [List.append_eq, ih, harith]

lemma decimalScan_no_paren (source : List Char) (nb : Option NoBits)
    (p0 p1 : Option Nat) :
    ∀ (l : List Char) (idx : Nat), (∀ c ∈ l, c ≠ '(' ∧ c ≠ ')') →
      decimalScan source l idx nb (p0, p1) = some (nb, (p0, p1))
  | [], _, _ => by simp [decimalScan]
  | c :: rest, idx, h => by
    obtain ⟨hc1, hc2⟩ := h c (List.mem_cons_self c rest)
    simp only [decimalScan, if_neg hc1, if_neg hc2]
    exact decimalScan_no_paren source nb p0 p1 rest (idx + 1)
      (fun d hd => h d (List.mem_cons_of_mem c hd))

set_option maxRecDepth 40000 in
lemma natChars_facts : ∀ n : Fin 256, natChars n.val ≠ [] ∧
    parseU8 (natChars n.val) = some n.val ∧
    ∀ c ∈ natChars n.val, 48 ≤ c.toNat ∧ c.toNat ≤ 57 := by decide

lemma digit_not_special {c : Char} (h48 : 48 ≤ c.toNat) (h57 : c.toNat ≤ 57) :
    c ≠ '(' ∧ c ≠ ')' ∧ c ≠ ',' ∧ isWhite c = false := by
  refine ⟨?_, ?_, ?_, ?_⟩
  · intro h; subst h; exact absurd h48 (by decide)
  · intro h; subst h; exact absurd h48 (by decide)
  · intro h; subst h; exact absurd h48 (by decide)
  · simp only [isWhite, Bool.or_eq_false_iff, Bool.and_eq_false_iff]
    refine ⟨decide_eq_false ?_, Or.inr (decide_eq_false ?_)⟩
    · intro h; subst h; exact absurd h48 (by decide)
    · omega

lemma dropWhile_white_eq_self {l : List Char} (h : ∀ c ∈ l, isWhite c = false) :
    l.dropWhile isWhite = l := by
  cases l with
  | nil => rfl
  | cons c rest => simp [List.dropWhile_cons, h c (List.mem_cons_self c rest)]

lemma trimChars_eq_self {l : List Char} (h : ∀ c ∈ l, isWhite c = false) :
    trimChars l = l := by
  unfold trimChars
  rw [dropWhile_white_eq_self h,
    dropWhile_white_eq_self (fun c hc => h c (List.mem_reverse.mp hc)),
    List.reverse_reverse]

lemma splitComma_no_comma {b : List Char} (hb : ∀ c ∈ b, c ≠ ',') :
    splitComma b = [b] := by
  induction b with
  | nil => rfl
  | cons c rest ih =>
    simp only [splitComma, if_neg (hb c (List.mem_cons_self c rest))]
    rw [ih (fun d hd => hb d (List.mem_cons_of_mem c hd))]

lemma splitComma_append {a : List Char} (b : List Char) (ha : ∀ c ∈ a, c ≠ ',') :
    splitComma (a ++ ',' :: b) = a :: splitComma b := by
  induction a with
  | nil => simp [splitComma]
  | cons c rest ih =>
    simp only [List.cons_append, splitComma,
      if_neg (ha c (List.mem_cons_self c rest)), List.append_eq]
    rw [ih (fun d hd => ha d (List.mem_cons_of_mem c hd))]

lemma decimalScan_body (S body : List Char) (k : Nat) (nb : Option NoBits)
    (p0 : Option Nat) (hb : ∀ c ∈ body, c ≠ '(' ∧ c ≠ ')') :
    decimalScan S (body ++ [')']) k nb (p0, none)
      = some (nb, (p0, some (k + body.length))) := by
  rw [decimalScan_append, decimalScan_no_paren S nb p0 none body k hb]
  simp [decimalScan]

lemma append_split8 (X : List Char) :
    str "Decimal(" ++ X = str "Decimal" ++ ('(' :: X) := by
  rw [(by decide : str "Decimal(" = str "Decimal" ++ ['(']), List.append_assoc]
  rfl

lemma append_split10v32 (X : List Char) :
    str "Decimal32(" ++ X = str "Decimal32" ++ ('(' :: X) := by
  rw [(by decide : str "Decimal32(" = str "Decimal32" ++ ['(']), List.append_assoc]
  rfl

lemma append_split10v64 (X : List Char) :
    str "Decimal64(" ++ X = str "Decimal64" ++ ('(' :: X) := by
  rw [(by decide : str "Decimal64(" = str "Decimal64" ++ ['(']), List.append_assoc]
  rfl

lemma decimalScan_paren_step (source rest : List Char) (idx : Nat)
    (nb : Option NoBits) (p0 p1 : Option Nat) :
    decimalScan source ('(' :: rest) idx nb (p0, p1) =
      if source.take idx = str "Decimal" then
        decimalScan source rest (idx + 1) nb (some idx, p1)
      else if source.take idx = str "Decimal32" then
        decimalScan source rest (idx + 1) (some NoBits.N32) (some idx, p1)
      else if source.take idx = str "Decimal64" then
        decimalScan source rest (idx + 1) (some NoBits.N64) (some idx, p1)
      else none := by
  simp [decimalScan]

lemma decimalScan_desc2run (body : List Char)
    (hb : ∀ c ∈ body, c ≠ '(' ∧ c ≠ ')') :
    decimalScan (str "Decimal(" ++ (body ++ [')']))
      (str "Decimal(" ++ (body ++ [')'])) 0 none (none, none)
      = some (none, (some 7, some (8 + body.length))) := by
  rw [append_split8, decimalScan_append,
    decimalScan_no_paren _ none none none (str "Decimal") 0 (by decide)]
  have h7 : (0 : Nat) + (str "Decimal").length = 7 := by decide
  have htake : (str "Decimal" ++ ('(' :: (body ++ [')']))).take 7 = str "Decimal" :=
    List.take_left' (by decide)
  simp only [h7]
  rw [decimalScan_paren_step, htake, if_pos rfl, (by decide : (7 : Nat) + 1 = 8)]
  exact decimalScan_body _ body 8 none (some 7) hb

lemma decimalScan_desc32run (body : List Char)
    (hb : ∀ c ∈ body, c ≠ '(' ∧ c ≠ ')') :
    decimalScan (str "Decimal32(" ++ (body ++ [')']))
      (str "Decimal32(" ++ (body ++ [')'])) 0 none (none, none)
      = some (some NoBits.N32, (some 9, some (10 + body.length))) := by
  rw [append_split10v32, decimalScan_append,
    decimalScan_no_paren _ none none none (str "Decimal32") 0 (by decide)]
  have h9 : (0 : Nat) + (str "Decimal32").length = 9 := by decide
  have htake : (str "Decimal32" ++ ('(' :: (body ++ [')']))).take 9 = str "Decimal32" :=
    List.take_left' (by decide)
  simp only [h9]
  rw [decimalScan_paren_step, htake, if_neg (by decide), if_pos rfl,
    (by decide : (9 : Nat) + 1 = 10)]
  exact decimalScan_body _ body 10 (some NoBits.N32) (some 9) hb

lemma decimalScan_desc64run (body : List Char)
    (hb : ∀ c ∈ body, c ≠ '(' ∧ c ≠ ')') :
    decimalScan (str "Decimal64(" ++ (body ++ [')']))
      (str "Decimal64(" ++ (body ++ [')'])) 0 none (none, none)
      = some (some NoBits.N64, (some 9, some (10 + body.length))) := by
  rw [append_split10v64, decimalScan_append,
    decimalScan_no_paren _ none none none (str "Decimal64") 0 (by decide)]
  have h9 : (0 : Nat) + (str "Decimal64").length = 9 := by decide
  have htake : (str "Decimal64" ++ ('(' :: (body ++ [')']))).take 9 = str "Decimal64" :=
    List.take_left' (by decide)
  simp only [h9]
  rw [decimalScan_paren_step, htake, if_neg (by decide), if_neg (by decide), if_pos rfl,
    (by decide : (9 : Nat) + 1 = 10)]
  exact decimalScan_body _ body 10 (some NoBits.N64) (some 9) hb

lemma natChars_nonempty {n : Nat} (hn : n ≤ 255) : natChars n ≠ [] :=
  (natChars_facts ⟨n, by omega⟩).1

lemma parseU8_natChars {n : Nat} (hn : n ≤ 255) : parseU8 (natChars n) = some n :=
  (natChars_facts ⟨n, by omega⟩).2.1

lemma natChars_digits {n : Nat} (hn : n ≤ 255) :
    ∀ c ∈ natChars n, 48 ≤ c.toNat ∧ c.toNat ≤ 57 :=
  (natChars_facts ⟨n, by omega⟩).2.2

lemma natChars_no_paren {n : Nat} (hn : n ≤ 255) :
    ∀ c ∈ natChars n, c ≠ '(' ∧ c ≠ ')' := by
  intro c hc
  obtain ⟨h48, h57⟩ := natChars_digits hn c hc
  exact ⟨(digit_not_special h48 h57).1, (digit_not_special h48 h57).2.1⟩

lemma natChars_no_comma {n : Nat} (hn : n ≤ 255) : ∀ c ∈ natChars n, c ≠ ',' := by
  intro c hc
  obtain ⟨h48, h57⟩ := natChars_digits hn c hc
  exact (digit_not_special h48 h57).2.2.1

lemma natChars_not_white {n : Nat} (hn : n ≤ 255) :
    ∀ c ∈ natChars n, isWhite c = false := by
  intro c hc
  obtain ⟨h48, h57⟩ := natChars_digits hn c hc
  exact (digit_not_special h48 h57).2.2.2

lemma parseU8_trim_natChars {n : Nat} (hn : n ≤ 255) :
    parseU8 (trimChars (natChars n)) = some n := by
  rw [trimChars_eq_self (natChars_not_white hn), parseU8_natChars hn]

/-- Full characterisation of `parse_decimal` on a well-formed
two-parameter descriptor: the scan finds the parentheses, the comma
split recovers the two printed parameters, and only the final
`scale > precision` and backing-width checks decide the result. -/
lemma parse_decimal_desc2 (p s : Nat) (hp : p ≤ 255) (hs : s ≤ 255) :
    parse_decimal (desc2 p s) =
      if s > p then none
      else
        match NoBits.from_precision p with
        | some nb => some (p, s, nb)
        | none => none := by
  have hA0 := natChars_nonempty hp
  have hB0 := natChars_nonempty hs
  have hbody : ∀ c ∈ natChars p ++ ',' :: natChars s, c ≠ '(' ∧ c ≠ ')' := by
    intro c hc
    rcases List.mem_append.mp hc with h | h
    · exact natChars_no_paren hp c h
    · rcases List.mem_cons.mp h with h | h
      · subst h; exact ⟨by decide, by decide⟩
      · exact natChars_no_paren hs c h
  have hdesc : desc2 p s
      = str "Decimal(" ++ ((natChars p ++ ',' :: natChars s) ++ [')']) := by
    unfold desc2
    rw [(by decide : str "," = [',']), (by decide : str ")" = [')'])]
    simp [List.append_assoc]
  rw [hdesc]
  have hAlen : 1 ≤ (natChars p).length := List.length_pos.mpr hA0
  have hBlen : 1 ≤ (natChars s).length := List.length_pos.mpr hB0
  have hlen : ¬ ((str "Decimal(" ++ ((natChars p ++ ',' :: natChars s) ++ [')'])).length < 12) := by
    simp only [List.length_append, List.length_cons,
      (by decide : (str "Decimal(").length = 8), (by decide : [')'].length = 1)]
    omega
  have hpre : (str "Decimal").isPrefixOf
      (str "Decimal(" ++ ((natChars p ++ ',' :: natChars s) ++ [')'])) = true := by
    rw [List.isPrefixOf_iff_prefix, append_split8]
    exact List.prefix_append _ _
  unfold parse_decimal
  rw [if_neg hlen, if_neg (by simpa using hpre), decimalScan_desc2run _ hbody]
  have hdrop : (str "Decimal(" ++ ((natChars p ++ ',' :: natChars s) ++ [')'])).drop (7 + 1)
      = (natChars p ++ ',' :: natChars s) ++ [')'] :=
    List.drop_left' (by decide)
  have htk : (8 + (natChars p ++ ',' :: natChars s).length - (7 + 1))
      = (natChars p ++ ',' :: natChars s).length := by omega
  simp only [hdrop, htk, List.take_left,
    splitComma_append _ (natChars_no_comma hp),
    splitComma_no_comma (natChars_no_comma hs), decimalParams,
    parseU8_trim_natChars hp, parseU8_trim_natChars hs]
  norm_num

/-- Characterisation of `parse_decimal` on a three-parameter descriptor:
the third comma-separated cell aborts the parameter loop, so the parse
always fails. -/
lemma parse_decimal_desc3 (p s t : Nat) (hp : p ≤ 255) (hs : s ≤ 255)
    (ht : t ≤ 255) : parse_decimal (desc3 p s t) = none := by
  have hbody : ∀ c ∈ natChars p ++ ',' :: (natChars s ++ ',' :: natChars t),
      c ≠ '(' ∧ c ≠ ')' := by
    intro c hc
    rcases List.mem_append.mp hc with h | h
    · exact natChars_no_paren hp c h
    · rcases List.mem_cons.mp h with h | h
      · subst h; exact ⟨by decide, by decide⟩
      · rcases List.mem_append.mp h with h | h
        · exact natChars_no_paren hs c h
        · rcases List.mem_cons.mp h with h | h
          · subst h; exact ⟨by decide, by decide⟩
          · exact natChars_no_paren ht c h
  have hdesc : desc3 p s t
      = str "Decimal(" ++ ((natChars p ++ ',' :: (natChars s ++ ',' :: natChars t)) ++ [')']) := by
    unfold desc3
    rw [(by decide : str "," = [',']), (by decide : str ")" = [')'])]
    simp [List.append_assoc]
  rw [hdesc]
  have hAlen : 1 ≤ (natChars p).length := List.length_pos.mpr (natChars_nonempty hp)
  have hlen : ¬ ((str "Decimal(" ++ ((natChars p ++ ',' :: (natChars s ++ ',' :: natChars t)) ++ [')'])).length < 12) := by
    simp only [List.length_append, List.length_cons,
      (by decide : (str "Decimal(").length = 8), (by decide : [')'].length = 1)]
    omega
  have hpre : (str "Decimal").isPrefixOf
      (str "Decimal(" ++ ((natChars p ++ ',' :: (natChars s ++ ',' :: natChars t)) ++ [')'])) = true := by
    rw [List.isPrefixOf_iff_prefix, append_split8]
    exact List.prefix_append _ _
  unfold parse_decimal
  rw [if_neg hlen, if_neg (by simpa using hpre), decimalScan_desc2run _ hbody]
  have hdrop : (str "Decimal(" ++ ((natChars p ++ ',' :: (natChars s ++ ',' :: natChars t)) ++ [')'])).drop (7 + 1)
      = (natChars p ++ ',' :: (natChars s ++ ',' :: natChars t)) ++ [')'] :=
    List.drop_left' (by decide)
  have htk : (8 + (natChars p ++ ',' :: (natChars s ++ ',' :: natChars t)).length - (7 + 1))
      = (natChars p ++ ',' :: (natChars s ++ ',' :: natChars t)).length := by omega
  simp only [hdrop, htk, List.take_left,
    splitComma_append _ (natChars_no_comma hp),
    splitComma_append _ (natChars_no_comma hs),
    splitComma_no_comma (natChars_no_comma ht), decimalParams]
  norm_num

/-- Characterisation of `parse_decimal` on `Decimal32(s)`: the backing
width is fixed to 32 bits, the implied precision is 9, and the scale is
accepted without any comparison against the precision. -/
lemma parse_decimal_desc32 (s : Nat) (hs : s ≤ 255) :
    parse_decimal (desc32 s) = some (9, s, NoBits.N32) := by
  have hdesc : desc32 s = str "Decimal32(" ++ (natChars s ++ [')']) := by
    unfold desc32
    rw [(by decide : str ")" = [')'])]
    simp [List.append_assoc]
  rw [hdesc]
  have hBlen : 1 ≤ (natChars s).length := List.length_pos.mpr (natChars_nonempty hs)
  have hlen : ¬ ((str "Decimal32(" ++ (natChars s ++ [')'])).length < 12) := by
    simp only [List.length_append,
      (by decide : (str "Decimal32(").length = 10), (by decide : [')'].length = 1)]
    omega
  have hpre : (str "Decimal").isPrefixOf
      (str "Decimal32(" ++ (natChars s ++ [')'])) = true := by
    rw [List.isPrefixOf_iff_prefix,
      (by decide : str "Decimal32(" = str "Decimal" ++ str "32("), List.append_assoc]
    exact List.prefix_append _ _
  unfold parse_decimal
  rw [if_neg hlen, if_neg (by simpa using hpre),
    decimalScan_desc32run _ (natChars_no_paren hs)]
  have hdrop : (str "Decimal32(" ++ (natChars s ++ [')'])).drop (9 + 1)
      = natChars s ++ [')'] :=
    List.drop_left' (by decide)
  have htk : (10 + (natChars s).length - (9 + 1)) = (natChars s).length := by omega
  simp only [hdrop, htk, List.take_left, parseU8_natChars hs]

/-- Characterisation of `parse_decimal` on `Decimal64(s)`: implied
precision 18, 64-bit backing width, unchecked scale. -/
lemma parse_decimal_desc64 (s : Nat) (hs : s ≤ 255) :
    parse_decimal (desc64 s) = some (18, s, NoBits.N64) := by
  have hdesc : desc64 s = str "Decimal64(" ++ (natChars s ++ [')']) := by
    unfold desc64
    rw [(by decide : str ")" = [')'])]
    simp [List.append_assoc]
  rw [hdesc]
  have hBlen : 1 ≤ (natChars s).length := List.length_pos.mpr (natChars_nonempty hs)
  have hlen : ¬ ((str "Decimal64(" ++ (natChars s ++ [')'])).length < 12) := by
    simp only [List.length_append,
      (by decide : (str "Decimal64(").length = 10), (by decide : [')'].length = 1)]
    omega
  have hpre : (str "Decimal").isPrefixOf
      (str "Decimal64(" ++ (natChars s ++ [')'])) = true := by
    rw [List.isPrefixOf_iff_prefix,
      (by decide : str "Decimal64(" = str "Decimal" ++ str "64("), List.append_assoc]
    exact List.prefix_append _ _
  unfold parse_decimal
  rw [if_neg hlen, if_neg (by simpa using hpre),
    decimalScan_desc64run _ (natChars_no_paren hs)]
  have hdrop : (str "Decimal64(" ++ (natChars s ++ [')'])).drop (9 + 1)
      = natChars s ++ [')'] :=
    List.drop_left' (by decide)
  have htk : (10 + (natChars s).length - (9 + 1)) = (natChars s).length := by omega
  simp only [hdrop, htk, List.take_left, parseU8_natChars hs]

lemma from_precision_bounds {p : Nat} {nb : NoBits}
    (h : NoBits.from_precision p = some nb) : 1 ≤ p ∧ p ≤ 18 := by
  unfold NoBits.from_precision at h
  split_ifs at h with h1 h2
  · simp only [Bool.and_eq_true, decide_eq_true_eq] at h1; omega
  · simp only [Bool.and_eq_true, decide_eq_true_eq] at h2; omega

lemma from_precision_none {p : Nat} (h : p = 0 ∨ 18 < p) :
    NoBits.from_precision p = none := by
  unfold NoBits.from_precision
  rw [if_neg (by simp only [Bool.and_eq_true, decide_eq_true_eq, not_and]; omega),
    if_neg (by simp only [Bool.and_eq_true, decide_eq_true_eq, not_and]; omega)]

/-- Inversion for `parse_decimal`: whatever the descriptor text is, a
successful classification carries a precision between 1 and 18 (either
checked through `NoBits::from_precision`, or fixed to 9/18 by the
`Decimal32`/`Decimal64` keyword). -/
lemma parse_decimal_bounds (src : List Char) (p s : Nat) (nb : NoBits)
    (h : parse_decimal src = some (p, s, nb)) : 1 ≤ p ∧ p ≤ 18 := by
  unfold parse_decimal at h
  split_ifs at h with hc1 hc2
  rcases hscan : decimalScan src src 0 none (none, none) with _ | ⟨nb0, ps, pe⟩
  · rw [hscan] at h; exact Option.noConfusion h
  rw [hscan] at h
  rcases ps with _ | pstart
  · simp at h
  rcases pe with _ | pend
  · simp at h
  dsimp only at h
  rcases nb0 with _ | bits
  · rcases hpar : decimalParams
        (splitComma ((src.drop (pstart + 1)).take (pend - (pstart + 1)))) 0 none none
      with _ | ⟨pr, sc⟩
    · rw [hpar] at h; exact Option.noConfusion h
    rw [hpar] at h
    rcases pr with _ | prec
    · rcases sc with _ | scale <;> simp at h
    rcases sc with _ | scale
    · simp at h
    dsimp only at h
    split_ifs at h with hgt
    rcases hfp : NoBits.from_precision prec with _ | nb2
    · rw [hfp] at h; exact Option.noConfusion h
    rw [hfp] at h
    simp only [Option.some.injEq, Prod.mk.injEq] at h
    obtain ⟨he1, he2, he3⟩ := h
    subst he1
    exact from_precision_bounds hfp
  · rcases hsc : parseU8 ((src.drop (pstart + 1)).take (pend - (pstart + 1)))
      with _ | scal
    · rw [hsc] at h; simp at h
    rw [hsc] at h
    cases bits with
    | N32 =>
      dsimp only at h
      simp only [Option.some.injEq, Prod.mk.injEq] at h
      obtain ⟨he1, he2, he3⟩ := h
      omega
    | N64 =>
      dsimp only at h
      simp only [Option.some.injEq, Prod.mk.injEq] at h
      obtain ⟨he1, he2, he3⟩ := h
      omega

/-- C1: for every two-parameter descriptor `Decimal(p,s)` with
`1 ≤ s ≤ p ≤ 18`, parsing succeeds with precision `p`, scale `s` and a
32-bit width for `p ≤ 9`, 64-bit for `10 ≤ p ≤ 18`; the parse fails
whenever `scale > precision`, whenever `precision > 18` (for any
`u8`-representable parameters), and whenever a third parameter is
present; `Decimal32(s)` and `Decimal64(s)` succeed with implied
precision 9 (32-bit) and 18 (64-bit) respectively. -/
theorem C1_decimal_descriptor_grammar :
    (∀ p s : Nat, 1 ≤ s → s ≤ p → p ≤ 18 →
      parse_decimal (desc2 p s)
        = some (p, s, if p ≤ 9 then NoBits.N32 else NoBits.N64))
    ∧ (∀ p s : Nat, p ≤ 255 → s ≤ 255 → p < s → parse_decimal (desc2 p s) = none)
    ∧ (∀ p s : Nat, 18 < p → p ≤ 255 → s ≤ 255 → parse_decimal (desc2 p s) = none)
    ∧ (∀ p s t : Nat, p ≤ 255 → s ≤ 255 → t ≤ 255 →
        parse_decimal (desc3 p s t) = none)
    ∧ (∀ s : Nat, s ≤ 255 → parse_decimal (desc32 s) = some (9, s, NoBits.N32))
    ∧ (∀ s : Nat, s ≤ 255 → parse_decimal (desc64 s) = some (18, s, NoBits.N64)) := by
  refine ⟨?_, ?_, ?_, parse_decimal_desc3, parse_decimal_desc32, parse_decimal_desc64⟩
  · intro p s h1 h2 h3
    rw [parse_decimal_desc2 p s (by omega) (by omega), if_neg (by omega)]
    unfold NoBits.from_precision
    rcases le_or_lt p 9 with h9 | h9
    · rw [if_pos (by simp only [Bool.and_eq_true, decide_eq_true_eq]; omega),
        if_pos h9]
    · rw [if_neg (by simp only [Bool.and_eq_true, decide_eq_true_eq, not_and]; omega),
        if_pos (by simp only [Bool.and_eq_true, decide_eq_true_eq]; omega),
        if_neg (by omega)]
  · intro p s hp hs hlt
    rw [parse_decimal_desc2 p s hp hs, if_pos (by omega)]
  · intro p s hgt hp hs
    rcases Nat.lt_or_ge p s with hsp | hsp
    · rw [parse_decimal_desc2 p s hp hs, if_pos (by omega)]
    · rw [parse_decimal_desc2 p s hp hs, if_neg (by omega),
        from_precision_none (Or.inr hgt)]

/-- Witness for C1 at `Decimal(9,4)`, `Decimal(3,4)`, `Decimal(20,4)`,
`Decimal(1,2,3)`, `Decimal32(4)` and `Decimal64(9)`. -/
theorem C1_decimal_descriptor_grammar_witness :
    parse_decimal (desc2 9 4) = some (9, 4, NoBits.N32)
    ∧ parse_decimal (desc2 3 4) = none
    ∧ parse_decimal (desc2 20 4) = none
    ∧ parse_decimal (desc3 1 2 3) = none
    ∧ parse_decimal (desc32 4) = some (9, 4, NoBits.N32)
    ∧ parse_decimal (desc64 9) = some (18, 9, NoBits.N64) := by
  obtain ⟨h1, h2, h3, h4, h5, h6⟩ := C1_decimal_descriptor_grammar
  exact ⟨by simpa using h1 9 4 (by norm_num) (by norm_num) (by norm_num),
    h2 3 4 (by norm_num) (by norm_num) (by norm_num),
    h3 20 4 (by norm_num) (by norm_num) (by norm_num),
    h4 1 2 3 (by norm_num) (by norm_num) (by norm_num),
    h5 4 (by norm_num), h6 9 (by norm_num)⟩

/-- C2 counterexample: `Decimal32(200)` is classified successfully, yet
its canonical type has scale 200 and precision 9, violating
`scale ≤ precision`. -/
theorem C2_counterexample_scale_exceeds_precision :
    parse_decimal (str "Decimal32(200)") = some (9, 200, NoBits.N32)
    ∧ ¬ (200 ≤ 9) := ⟨by decide, by decide⟩

/-- C2 (amended): every decimal descriptor on which classification
succeeds yields `1 ≤ precision ≤ 18`; `scale ≤ precision` holds for the
two-parameter form (its parse rejects `scale > precision`), but the
single-parameter `Decimal32`/`Decimal64` forms accept any
`u8`-representable scale, including scales above the implied
precision. -/
theorem C2_decimal_invariant :
    (∀ (src : List Char) (p s : Nat) (nb : NoBits),
      parse_decimal src = some (p, s, nb) → 1 ≤ p ∧ p ≤ 18)
    ∧ parse_decimal (str "Decimal32(200)") = some (9, 200, NoBits.N32) :=
  ⟨parse_decimal_bounds, by decide⟩

/-- Witness for C2 at `Decimal(9, 4)`. -/
theorem C2_decimal_invariant_witness : 1 ≤ 9 ∧ 9 ≤ 18 :=
  C2_decimal_invariant.1 (str "Decimal(9, 4)") 9 4 NoBits.N32 (by decide)

/-- C5: the nullable rule accepts `Nullable(Int8)` with inner text
`Int8`, does not match the bare primitive `Int8`, and rejects every
sufficiently long descriptor whose extracted inner text starts with
`Nullable` — in particular both `Nullable(Nullable(Int8))` and
`Nullable(NullableFoo)` are rejected. -/
theorem C5_nullable_prefix_rule :
    parse_nullable_type (str "Nullable(Int8)") = .ok (some (str "Int8"))
    ∧ parse_nullable_type (str "Int8") = .ok none
    ∧ (∀ source : List Char, (str "Nullable").isPrefixOf source →
        (str "Nullable").isPrefixOf
          ((source.drop 9).take (source.length - 1 - 9)) →
        parse_nullable_type source = .ok none)
    ∧ parse_nullable_type (str "Nullable(Nullable(Int8))") = .ok none
    ∧ parse_nullable_type (str "Nullable(NullableFoo)") = .ok none := by
  refine ⟨by decide, by decide, ?_, by decide, by decide⟩
  intro source h1 h2
  have h8 : (8 : Nat) ≤ min (source.length - 1 - 9) (source.length - 9) := by
    have hpfx := List.IsPrefix.length_le (List.isPrefixOf_iff_prefix.mp h2)
    rw [List.length_take, List.length_drop] at hpfx
    exact le_trans (by decide) hpfx
  rw [Nat.le_min] at h8
  have hlen : ¬ (source.length < 10) := by omega
  unfold parse_nullable_type
  rw [if_neg (not_not_intro h1), if_neg hlen, if_pos h2]

/-- Witness for C5 at `Nullable(NullableX)`. -/
theorem C5_nullable_prefix_rule_witness :
    parse_nullable_type (str "Nullable(NullableX)") = .ok none :=
  C5_nullable_prefix_rule.2.2.1 (str "Nullable(NullableX)") (by decide) (by decide)

/-- C10: the `Array`, `Nullable` and `FixedString` rules never compare
the delimiter positions against `(` and `)`: for arbitrary characters
`c`, `d` in the delimiter positions the classification is the same as
with real parentheses, and `ArrayXUInt8Y` is classified exactly like
`Array(UInt8)`. -/
theorem C10_bare_prefix_slicing :
    (∀ (c d : Char) (inner : List Char),
      parse_array_type (str "Array" ++ c :: (inner ++ [d])) = .ok (some inner))
    ∧ (∀ (c d : Char) (inner : List Char),
        ¬ (str "Nullable").isPrefixOf inner →
        parse_nullable_type (str "Nullable" ++ c :: (inner ++ [d]))
          = .ok (some inner))
    ∧ (∀ (c d : Char) (inner : List Char),
        parse_fixed_string (str "FixedString" ++ c :: (inner ++ [d]))
          = .ok (parseUsize inner))
    ∧ load_data (str "ArrayXUInt8Y") = load_data (str "Array(UInt8)") := by
  refine ⟨?_, ?_, ?_, by decide⟩
  · intro c d inner
    have hpre : (str "Array").isPrefixOf (str "Array" ++ c :: (inner ++ [d])) := by
      rw [List.isPrefixOf_iff_prefix]; exact List.prefix_append _ _
    have hlen : ¬ ((str "Array" ++ c :: (inner ++ [d])).length < 7) := by
      simp only [List.length_append, List.length_cons, List.length_nil,
        (by decide : (str "Array").length = 5)]
      omega
    have hsplit : str "Array" ++ c :: (inner ++ [d])
        = (str "Array" ++ [c]) ++ (inner ++ [d]) := by simp
    have hdrop : (str "Array" ++ c :: (inner ++ [d])).drop 6 = inner ++ [d] := by
      rw [hsplit]
      exact List.drop_left' (by simp [(by decide : (str "Array").length = 5)])
    have htk : (str "Array" ++ c :: (inner ++ [d])).length - 1 - 6
        = inner.length := by
      simp only [List.length_append, List.length_cons, List.length_nil,
        List.length_singleton, (by decide : (str "Array").length = 5)]
      omega
    unfold parse_array_type
    rw [if_neg (not_not_intro hpre), if_neg hlen]
    simp only [hdrop, htk, List.take_left]
  · intro c d inner hno
    have hpre : (str "Nullable").isPrefixOf (str "Nullable" ++ c :: (inner ++ [d])) := by
      rw [List.isPrefixOf_iff_prefix]; exact List.prefix_append _ _
    have hlen : ¬ ((str "Nullable" ++ c :: (inner ++ [d])).length < 10) := by
      simp only [List.length_append, List.length_cons, List.length_nil,
        (by decide : (str "Nullable").length = 8)]
      omega
    have hsplit : str "Nullable" ++ c :: (inner ++ [d])
        = (str "Nullable" ++ [c]) ++ (inner ++ [d]) := by simp
    have hdrop : (str "Nullable" ++ c :: (inner ++ [d])).drop 9 = inner ++ [d] := by
      rw [hsplit]
      exact List.drop_left' (by simp [(by decide : (str "Nullable").length = 8)])
    have htk : (str "Nullable" ++ c :: (inner ++ [d])).length - 1 - 9
        = inner.length := by
      simp only [List.length_append, List.length_cons, List.length_nil,
        List.length_singleton, (by decide : (str "Nullable").length = 8)]
      omega
    unfold parse_nullable_type
    rw [if_neg (not_not_intro hpre), if_neg hlen]
    simp only [hdrop, htk, List.take_left]
    rw [if_neg hno]
  · intro c d inner
    have hpre : (str "FixedString").isPrefixOf
        (str "FixedString" ++ c :: (inner ++ [d])) := by
      rw [List.isPrefixOf_iff_prefix]; exact List.prefix_append _ _
    have hlen : ¬ ((str "FixedString" ++ c :: (inner ++ [d])).length < 13) := by
      simp only [List.length_append, List.length_cons, List.length_nil,
        (by decide : (str "FixedString").length = 11)]
      omega
    have hsplit : str "FixedString" ++ c :: (inner ++ [d])
        = (str "FixedString" ++ [c]) ++ (inner ++ [d]) := by simp
    have hdrop : (str "FixedString" ++ c :: (inner ++ [d])).drop 12
        = inner ++ [d] := by
      rw [hsplit]
      exact List.drop_left' (by simp [(by decide : (str "FixedString").length = 11)])
    have htk : (str "FixedString" ++ c :: (inner ++ [d])).length - 1 - 12
        = inner.length := by
      simp only [List.length_append, List.length_cons, List.length_nil,
        List.length_singleton, (by decide : (str "FixedString").length = 11)]
      omega
    unfold parse_fixed_string
    rw [if_neg (not_not_intro hpre), if_neg hlen]
    simp only [hdrop, htk, List.take_left]
    cases parseUsize inner <;> rfl

/-- Witness for C10 at `NullableXInt8Y`. -/
theorem C10_bare_prefix_slicing_witness :
    parse_nullable_type (str "Nullable" ++ 'X' :: (str "Int8" ++ ['Y']))
      = .ok (some (str "Int8")) :=
  C10_bare_prefix_slicing.2.1 'X' 'Y' (str "Int8") (by decide)

lemma parse_nullable_type_panicked_iff (source : List Char) :
    parse_nullable_type source = .panicked ↔
      (str "Nullable").isPrefixOf source ∧ source.length < 10 := by
  unfold parse_nullable_type
  dsimp only
  by_cases h1 : (str "Nullable").isPrefixOf source = true
  · rw [if_neg (not_not_intro h1)]
    by_cases h2 : source.length < 10
    · rw [if_pos h2]; simp [h1, h2]
    · rw [if_neg h2]
      by_cases h3 : (str "Nullable").isPrefixOf
          (List.take (source.length - 1 - 9) (List.drop 9 source)) = true
      · rw [if_pos h3]; simp [h1, h2]
      · rw [if_neg h3]; simp [h1, h2]
  · rw [if_pos h1]; simp [h1]

lemma parse_fixed_string_panicked_iff (source : List Char) :
    parse_fixed_string source = .panicked ↔
      (str "FixedString").isPrefixOf source ∧ source.length < 13 := by
  unfold parse_fixed_string
  dsimp only
  by_cases h1 : (str "FixedString").isPrefixOf source = true
  · rw [if_neg (not_not_intro h1)]
    by_cases h2 : source.length < 13
    · rw [if_pos h2]; simp [h1, h2]
    · rw [if_neg h2]
      cases hu : parseUsize (List.take (source.length - 1 - 12) (List.drop 12 source)) <;>
        simp [hu, h2]
  · rw [if_pos h1]; simp [h1]

lemma parse_array_type_panicked_iff (source : List Char) :
    parse_array_type source = .panicked ↔
      (str "Array").isPrefixOf source ∧ source.length < 7 := by
  unfold parse_array_type
  dsimp only
  by_cases h1 : (str "Array").isPrefixOf source = true
  · rw [if_neg (not_not_intro h1)]
    by_cases h2 : source.length < 7
    · rw [if_pos h2]; simp [h1, h2]
    · rw [if_neg h2]; simp [h1, h2]
  · rw [if_pos h1]; simp [h1]

set_option maxHeartbeats 2000000 in
lemma load_data_panicked_inv {tn : List Char} (h : load_data tn = .panicked) :
    parse_nullable_type tn = .panicked ∨ parse_fixed_string tn = .panicked
      ∨ parse_array_type tn = .panicked := by
  unfold load_data at h
  rcases hm : match_str tn with _ | d <;> rw [hm] at h
  · repeat' split at h
    all_goals first
      | exact RustRes.noConfusion h
      | exact Or.inl (by assumption)
      | exact Or.inr (Or.inl (by assumption))
      | exact Or.inr (Or.inr (by assumption))
  · exact RustRes.noConfusion h

/-- C9 (amended): the three slicing helpers panic exactly on the inputs
carrying the bare keyword prefix but shorter than keyword length plus
two (so the fixed slice is out of bounds): `Nullable`-prefixed inputs of
length below 10, `FixedString`-prefixed below 13, `Array`-prefixed
below 7.  On every other descriptor the helpers are total and
`load_data` classification either selects a column or returns an error,
never aborting. -/
theorem C9_classification_totality :
    (∀ source : List Char, parse_nullable_type source = .panicked ↔
        (str "Nullable").isPrefixOf source ∧ source.length < 10)
    ∧ (∀ source : List Char, parse_fixed_string source = .panicked ↔
        (str "FixedString").isPrefixOf source ∧ source.length < 13)
    ∧ (∀ source : List Char, parse_array_type source = .panicked ↔
        (str "Array").isPrefixOf source ∧ source.length < 7)
    ∧ (∀ type_name : List Char,
        ¬ ((str "Nullable").isPrefixOf type_name ∧ type_name.length < 10) →
        ¬ ((str "FixedString").isPrefixOf type_name ∧ type_name.length < 13) →
        ¬ ((str "Array").isPrefixOf type_name ∧ type_name.length < 7) →
        ∃ r, load_data type_name = .ok r) := by
  refine ⟨parse_nullable_type_panicked_iff, parse_fixed_string_panicked_iff,
    parse_array_type_panicked_iff, ?_⟩
  intro tn hn hf ha
  rcases hld : load_data tn with _ | r
  · rcases load_data_panicked_inv hld with hx | hx | hx
    · exact absurd ((parse_nullable_type_panicked_iff tn).mp hx) hn
    · exact absurd ((parse_fixed_string_panicked_iff tn).mp hx) hf
    · exact absurd ((parse_array_type_panicked_iff tn).mp hx) ha
  · exact ⟨r, rfl⟩

/-- C9 counterexample: the bare keyword descriptors slice out of bounds,
so the helpers (and `load_data` classification) abort. -/
theorem C9_counterexample_short_keyword_panics :
    load_data (str "Nullable") = .panicked
    ∧ parse_nullable_type (str "Nullable") = .panicked
    ∧ parse_fixed_string (str "FixedString") = .panicked
    ∧ parse_array_type (str "Array") = .panicked :=
  ⟨by decide, by decide, by decide, by decide⟩

/-- Witness for C9 at the descriptor `Foo`. -/
theorem C9_classification_totality_witness :
    ∃ r, load_data (str "Foo") = .ok r :=
  C9_classification_totality.2.2.2 (str "Foo") (by decide) (by decide) (by decide)

/-- C4 counterexample: a malformed decimal parameter list
(`Decimal(3, 4)`, scale above precision) is reported with the very same
`unsupportedColumnType` error as a descriptor matching no rule at all
(`Foo`); no distinct malformed-parameter error kind exists. -/
theorem C4_counterexample_single_error_kind :
    load_data (str "Decimal(3, 4)")
      = .ok (.err (.unsupportedColumnType (str "Decimal(3, 4)")))
    ∧ load_data (str "Foo") = .ok (.err (.unsupportedColumnType (str "Foo"))) :=
  ⟨by decide, by decide⟩

set_option maxHeartbeats 2000000 in
/-- C4 (amended): every error that `load_data` classification itself
raises — including for composite descriptors whose parameters fail to
parse or violate the parameter invariants — is the single
`unsupportedColumnType` kind carrying the full descriptor; malformed
decimal and enum parameters are not distinguishable from descriptors
matching no grammar rule. -/
theorem C4_malformed_parameters_collapse :
    (∀ (tn : List Char) (e : ColumnError), load_data tn = .ok (.err e) →
        e = .unsupportedColumnType tn)
    ∧ load_data (str "Decimal(3, 4)")
        = .ok (.err (.unsupportedColumnType (str "Decimal(3, 4)")))
    ∧ load_data (str "Decimal(20, 4)")
        = .ok (.err (.unsupportedColumnType (str "Decimal(20, 4)")))
    ∧ load_data (str "Enum8('a' = 1,)")
        = .ok (.err (.unsupportedColumnType (str "Enum8('a' = 1,)")))
    ∧ load_data (str "Enum8()")
        = .ok (.err (.unsupportedColumnType (str "Enum8()")))
    ∧ load_data (str "Enum16('a' = 40000)")
        = .ok (.err (.unsupportedColumnType (str "Enum16('a' = 40000)"))) := by
  refine ⟨?_, by decide, by decide, by decide, by decide, by decide⟩
  intro tn e h
  unfold load_data at h
  rcases hm : match_str tn with _ | d <;> rw [hm] at h
  · repeat' split at h
    all_goals first
      | exact RustRes.noConfusion h
      | exact Res.noConfusion (RustRes.ok.inj h)
      | exact (Res.err.inj (RustRes.ok.inj h)).symm
  · exact Res.noConfusion (RustRes.ok.inj h)

/-- Witness for C4 at the descriptor `Foo`. -/
theorem C4_malformed_parameters_collapse_witness :
    ColumnError.unsupportedColumnType (str "Foo")
      = ColumnError.unsupportedColumnType (str "Foo") :=
  C4_malformed_parameters_collapse.1 (str "Foo")
    (.unsupportedColumnType (str "Foo")) (by decide)

lemma match_str_congr {a b : List Char} (h : a.map asciiLower = b.map asciiLower) :
    match_str a = match_str b := by
  unfold match_str eqIgnoreAsciiCase
  rw [h]

lemma load_data_eqIC (tn tag : List Char) (d : ColumnDispatch)
    (h : eqIgnoreAsciiCase tn tag = true)
    (htag : match_str tag = some d) : load_data tn = .ok (.ok d) := by
  have hm : match_str tn = match_str tag := match_str_congr (eq_of_beq h)
  unfold load_data
  rw [hm, htag]

/-- C8: every descriptor differing from a primitive tag only in ASCII
letter case dispatches to that primitive's column implementation, for
the whole primitive vocabulary; the composite keyword rules stay
case-sensitive, so lower-cased composite descriptors fall through to
the unsupported-column-type error. -/
theorem C8_primitive_case_insensitive :
    (∀ tn : List Char, eqIgnoreAsciiCase tn (str "UInt8") →
      load_data tn = .ok (.ok .vectorU8))
    ∧ (∀ tn : List Char, eqIgnoreAsciiCase tn (str "UInt16") →
      load_data tn = .ok (.ok .vectorU16))
    ∧ (∀ tn : List Char, eqIgnoreAsciiCase tn (str "UInt32") →
      load_data tn = .ok (.ok .vectorU32))
    ∧ (∀ tn : List Char, eqIgnoreAsciiCase tn (str "UInt64") →
      load_data tn = .ok (.ok .vectorU64))
    ∧ (∀ tn : List Char, eqIgnoreAsciiCase tn (str "Int8") →
      load_data tn = .ok (.ok .vectorI8))
    ∧ (∀ tn : List Char, eqIgnoreAsciiCase tn (str "Int16") →
      load_data tn = .ok (.ok .vectorI16))
    ∧ (∀ tn : List Char, eqIgnoreAsciiCase tn (str "Int32") →
      load_data tn = .ok (.ok .vectorI32))
    ∧ (∀ tn : List Char, eqIgnoreAsciiCase tn (str "Int64") →
      load_data tn = .ok (.ok .vectorI64))
    ∧ (∀ tn : List Char, eqIgnoreAsciiCase tn (str "Float32") →
      load_data tn = .ok (.ok .vectorF32))
    ∧ (∀ tn : List Char, eqIgnoreAsciiCase tn (str "Float64") →
      load_data tn = .ok (.ok .vectorF64))
    ∧ (∀ tn : List Char, eqIgnoreAsciiCase tn (str "String") →
      load_data tn = .ok (.ok .stringColumn))
    ∧ (∀ tn : List Char, eqIgnoreAsciiCase tn (str "Date") →
      load_data tn = .ok (.ok .dateColumn))
    ∧ (∀ tn : List Char, eqIgnoreAsciiCase tn (str "DateTime") →
      load_data tn = .ok (.ok .dateTimeColumn))
    ∧ (∀ tn : List Char, eqIgnoreAsciiCase tn (str "IPv4") →
      load_data tn = .ok (.ok .ipv4Column))
    ∧ (∀ tn : List Char, eqIgnoreAsciiCase tn (str "IPv6") →
      load_data tn = .ok (.ok .ipv6Column))
    ∧ (∀ tn : List Char, eqIgnoreAsciiCase tn (str "UUID") →
      load_data tn = .ok (.ok .uuidColumn))
    ∧ load_data (str "nullable(Int8)")
        = .ok (.err (.unsupportedColumnType (str "nullable(Int8)")))
    ∧ load_data (str "fixedstring(8)")
        = .ok (.err (.unsupportedColumnType (str "fixedstring(8)")))
    ∧ load_data (str "array(UInt8)")
        = .ok (.err (.unsupportedColumnType (str "array(UInt8)")))
    ∧ load_data (str "decimal(9, 4)")
        = .ok (.err (.unsupportedColumnType (str "decimal(9, 4)")))
    ∧ load_data (str "enum8('a' = 1)")
        = .ok (.err (.unsupportedColumnType (str "enum8('a' = 1)")))
    ∧ load_data (str "enum16('a' = 1)")
        = .ok (.err (.unsupportedColumnType (str "enum16('a' = 1)"))) :=
  ⟨fun tn h => load_data_eqIC tn _ _ h (by decide),
    fun tn h => load_data_eqIC tn _ _ h (by decide),
    fun tn h => load_data_eqIC tn _ _ h (by decide),
    fun tn h => load_data_eqIC tn _ _ h (by decide),
    fun tn h => load_data_eqIC tn _ _ h (by decide),
    fun tn h => load_data_eqIC tn _ _ h (by decide),
    fun tn h => load_data_eqIC tn _ _ h (by decide),
    fun tn h => load_data_eqIC tn _ _ h (by decide),
    fun tn h => load_data_eqIC tn _ _ h (by decide),
    fun tn h => load_data_eqIC tn _ _ h (by decide),
    fun tn h => load_data_eqIC tn _ _ h (by decide),
    fun tn h => load_data_eqIC tn _ _ h (by decide),
    fun tn h => load_data_eqIC tn _ _ h (by decide),
    fun tn h => load_data_eqIC tn _ _ h (by decide),
    fun tn h => load_data_eqIC tn _ _ h (by decide),
    fun tn h => load_data_eqIC tn _ _ h (by decide),
    by decide, by decide, by decide, by decide, by decide, by decide⟩

/-- Witness for C8 at the lower-cased primitive descriptors `uint8` and
`datetime`. -/
theorem C8_primitive_case_insensitive_witness :
    load_data (str "uint8") = .ok (.ok .vectorU8)
    ∧ load_data (str "datetime") = .ok (.ok .dateTimeColumn) :=
  ⟨C8_primitive_case_insensitive.1 (str "uint8") (by decide),
    C8_primitive_case_insensitive.2.2.2.2.2.2.2.2.2.2.2.2.1
      (str "datetime") (by decide)⟩

lemma parseEnumInteger_range {input : List Char} {v : Int} {rest : List Char}
    (h : parseEnumInteger input = some (v, rest)) :
    -32768 ≤ v ∧ v ≤ 32767 := by
  unfold parseEnumInteger at h
  repeat' split at h
  all_goals try exact Option.noConfusion h
  all_goals try dsimp only at h
  all_goals split_ifs at h with hc
  all_goals
    simp only [Option.some.injEq, Prod.mk.injEq] at h
    obtain ⟨hv, -⟩ := h
    subst hv
    simp only [Bool.and_eq_true, decide_eq_true_eq] at hc
    omega

lemma parsePair_range {input : List Char} {pv : List Char × Int} {rest : List Char}
    (h : parsePair input = some (pv, rest)) : -32768 ≤ pv.2 ∧ pv.2 ≤ 32767 := by
  obtain ⟨w, v⟩ := pv
  unfold parsePair at h
  repeat' split at h
  all_goals try exact Option.noConfusion h
  simp only [Option.some.injEq, Prod.mk.injEq] at h
  obtain ⟨⟨-, hv⟩, -⟩ := h
  subst hv
  exact parseEnumInteger_range (by assumption)

lemma parseBodyRest_range :
    ∀ (fuel : Nat) (input : List Char) (ps : List (List Char × Int))
      (rest : List Char), parseBodyRest fuel input = some (ps, rest) →
      ∀ pr ∈ ps, -32768 ≤ pr.2 ∧ pr.2 ≤ 32767 := by
  intro fuel
  induction fuel with
  | zero =>
    intro input ps rest h pr hpr
    unfold parseBodyRest at h
    split at h
    · exact Option.noConfusion h
    · simp only [Option.some.injEq, Prod.mk.injEq] at h
      obtain ⟨hps, -⟩ := h
      subst hps
      exact absurd hpr (List.not_mem_nil pr)
  | succ n ih =>
    intro input ps rest h pr hpr
    unfold parseBodyRest at h
    split at h
    · repeat' split at h
      all_goals try exact Option.noConfusion h
      simp only [Option.some.injEq, Prod.mk.injEq] at h
      obtain ⟨hps, -⟩ := h
      subst hps
      rcases List.mem_cons.mp hpr with hpr | hpr
      · subst hpr; exact parsePair_range (by assumption)
      · exact ih _ _ _ (by assumption) pr hpr
    · simp only [Option.some.injEq, Prod.mk.injEq] at h
      obtain ⟨hps, -⟩ := h
      subst hps
      exact absurd hpr (List.not_mem_nil pr)

lemma parseEnumCore_facts {kw input : List Char}
    {l : List (List Char × Int)} {rest : List Char}
    (h : parseEnumCore kw input = some (l, rest)) :
    l ≠ [] ∧ ∀ pr ∈ l, -32768 ≤ pr.2 ∧ pr.2 ≤ 32767 := by
  unfold parseEnumCore at h
  repeat' split at h
  all_goals try exact Option.noConfusion h
  simp only [Option.some.injEq, Prod.mk.injEq] at h
  obtain ⟨hl, -⟩ := h
  subst hl
  refine ⟨List.cons_ne_nil _ _, ?_⟩
  intro pr hpr
  rcases List.mem_cons.mp hpr with hpr | hpr
  · subst hpr; exact parsePair_range (by assumption)
  · exact parseBodyRest_range _ _ _ _ (by assumption) pr hpr

lemma parse_enum_facts {size : EnumSize} {input : List Char}
    {l : List (List Char × Int)} (h : parse_enum size input = some l) :
    l ≠ [] ∧ ∀ pr ∈ l, -32768 ≤ pr.2 ∧ pr.2 ≤ 32767 := by
  unfold parse_enum at h
  cases size <;>
    · dsimp only at h
      repeat' split at h
      all_goals try exact Option.noConfusion h
      all_goals
        simp only [Option.some.injEq] at h
        subst h
        exact parseEnumCore_facts (by assumption)

lemma wrapI8_range (v : Int) : -128 ≤ wrapI8 v ∧ wrapI8 v ≤ 127 := by
  unfold wrapI8; omega

lemma wrapI8_id {v : Int} (h1 : -128 ≤ v) (h2 : v ≤ 127) : wrapI8 v = v := by
  unfold wrapI8; omega

lemma parse_enum8_eq_map {input : List Char} {l16 : List (List Char × Int)}
    (h : parse_enum EnumSize.Enum8 input = some l16) :
    parse_enum8 input = some (l16.map fun pr => (pr.1, wrapI8 pr.2)) := by
  unfold parse_enum8
  rw [h]

lemma parse_enum8_range {input : List Char} {l : List (List Char × Int)}
    (h : parse_enum8 input = some l) :
    ∀ pr ∈ l, -128 ≤ pr.2 ∧ pr.2 ≤ 127 := by
  unfold parse_enum8 at h
  rcases he : parse_enum EnumSize.Enum8 input with _ | l16 <;> rw [he] at h
  · exact Option.noConfusion h
  · simp only [Option.some.injEq] at h
    subst h
    intro pr hpr
    obtain ⟨pr0, hpr0, hmap⟩ := List.mem_map.mp hpr
    subst hmap
    exact wrapI8_range pr0.2

/-- C6: the enum grammar accepts exactly a non-empty comma-separated
list of quoted-name/value pairs with no trailing comma and no leftover
text; trailing comma, empty body, missing value, missing name and
leading stray comma each fail the whole classification, empty-string
names are accepted, pairs come back in written order, and no successful
classification ever returns an empty (partial) mapping. -/
theorem C6_enum_list_grammar :
    parse_enum8 (str "Enum8('a' = 1, 'b' = 2)")
      = some [(str "a", 1), (str "b", 2)]
    ∧ parse_enum8 (str "Enum8('a' = 1, 'b' = 2,)") = none
    ∧ parse_enum8 (str "Enum8()") = none
    ∧ parse_enum8 (str "Enum8('a' =)") = none
    ∧ parse_enum8 (str "Enum8(=1)") = none
    ∧ parse_enum8 (str "Enum8( , 'a' = 1)") = none
    ∧ parse_enum8 (str "Enum8( '' = 1)") = some [([], 1)]
    ∧ parse_enum8 (str "Enum8('a' = 1)x") = none
    ∧ (∀ (size : EnumSize) (input : List Char) (l : List (List Char × Int)),
        parse_enum size input = some l → l ≠ []) := by
  refine ⟨by decide, by decide, by decide, by decide, by decide, by decide,
    by decide, by decide, ?_⟩
  intro size input l h
  exact (parse_enum_facts h).1

/-- Witness for C6 at `Enum8('a' = 1)`. -/
theorem C6_enum_list_grammar_witness : [(str "a", (1 : Int))] ≠ [] :=
  C6_enum_list_grammar.2.2.2.2.2.2.2.2 EnumSize.Enum8
    (str "Enum8('a' = 1)") [(str "a", 1)] (by decide)

/-- C7 counterexample: `Enum8('a' = 1000)` is accepted — the 16-bit
value 1000 is narrowed by `as i8` to -24, so the built mapping's code
does not equal the textual value in the descriptor. -/
theorem C7_counterexample_enum8_code_differs :
    parse_enum8 (str "Enum8('a' = 1000)") = some [(str "a", -24)]
    ∧ ¬ ((-24 : Int) = 1000) := ⟨by decide, by decide⟩

/-- C7 (amended): enum values are parsed as signed 16-bit integers, so
Enum16 values outside that range fail classification at parse time;
Enum8 codes are produced by the two's-complement truncation `as i8` of
the parsed 16-bit value, hence always lie in the signed 8-bit range and
equal the textual value exactly when that value itself fits the signed
8-bit range (out-of-range textual values are wrapped, not rejected). -/
theorem C7_enum_value_widths :
    (∀ (input : List Char) (l : List (List Char × Int)),
      parse_enum16 input = some l →
        ∀ pr ∈ l, -32768 ≤ pr.2 ∧ pr.2 ≤ 32767)
    ∧ parse_enum16 (str "Enum16('a' = 32768)") = none
    ∧ parse_enum16 (str "Enum16('a' = -32769)") = none
    ∧ parse_enum16 (str "Enum16('a' = -32768)") = some [(str "a", -32768)]
    ∧ (∀ (input : List Char) (l : List (List Char × Int)),
      parse_enum8 input = some l → ∀ pr ∈ l, -128 ≤ pr.2 ∧ pr.2 ≤ 127)
    ∧ (∀ (input : List Char) (l16 : List (List Char × Int)),
      parse_enum EnumSize.Enum8 input = some l16 →
        parse_enum8 input = some (l16.map fun pr => (pr.1, wrapI8 pr.2)))
    ∧ (∀ v : Int, -128 ≤ v → v ≤ 127 → wrapI8 v = v) := by
  refine ⟨?_, by decide, by decide, by decide, ?_, ?_, ?_⟩
  · intro input l h
    exact (@parse_enum_facts EnumSize.Enum16 input l h).2
  · intro input l h
    exact parse_enum8_range h
  · intro input l16 h
    exact parse_enum8_eq_map h
  · intro v h1 h2
    exact wrapI8_id h1 h2

/-- Witness for C7 at `Enum16('a' = 1)` and the in-range value 5. -/
theorem C7_enum_value_widths_witness :
    (-32768 ≤ ((str "a", (1 : Int)) : List Char × Int).2
      ∧ ((str "a", (1 : Int)) : List Char × Int).2 ≤ 32767)
    ∧ wrapI8 5 = 5 :=
  ⟨C7_enum_value_widths.1 (str "Enum16('a' = 1)") [(str "a", 1)]
      (by decide) (str "a", 1) (by simp),
    C7_enum_value_widths.2.2.2.2.2.2 5 (by decide) (by decide)⟩

/-- C3 counterexample: `SqlType.Decimal(19, 0)` is representable in the
canonical type model, but `from_type` panics on it — the
`NoBits::from_precision(precision).unwrap()` fails because precision 19
has no backing width. -/
theorem C3_counterexample_decimal_unwrap_panics :
    from_type (SqlType.decimal 19 0) ⟨0⟩ 0 = .panicked := by
  simp [from_type, NoBits.from_precision]

/-- C3 (amended): `from_type` succeeds — never fails, never panics —
for every canonical type, timezone and capacity, provided every decimal
node's precision has a backing width (1-18); for a decimal precision
outside that range the `unwrap` in the decimal arm panics. -/
theorem C3_from_type_total_on_supported :
    ∀ (t : SqlType) (tz : Tz) (capacity : Nat), t.decimalsSupported →
      ∃ c, from_type t tz capacity = .ok (.ok c) := by
  intro t tz capacity
  induction t <;> try (intro _; simp only [from_type]; exact ⟨_, rfl⟩)
  case nullable inner ih =>
    intro h
    obtain ⟨c, hc⟩ := ih (by simpa [SqlType.decimalsSupported] using h)
    exact ⟨.nullableColumn c [], by simp [from_type, hc]⟩
  case array inner ih =>
    intro h
    obtain ⟨c, hc⟩ := ih (by simpa [SqlType.decimalsSupported] using h)
    exact ⟨.arrayColumn c [], by simp [from_type, hc]⟩
  case decimal p s =>
    intro h
    rcases hfp : NoBits.from_precision p with _ | nb
    · rw [SqlType.decimalsSupported, hfp] at h
      exact absurd h (by simp)
    · cases nb
      · exact ⟨.decimalColumn (.vectorI32 capacity) p s .N32,
          by simp [from_type, hfp]⟩
      · exact ⟨.decimalColumn (.vectorI64 capacity) p s .N64,
          by simp [from_type, hfp]⟩

/-- Witness for C3 at `Decimal(9, 2)`. -/
theorem C3_from_type_total_witness :
    ∃ c, from_type (SqlType.decimal 9 2) ⟨0⟩ 5 = .ok (.ok c) :=
  C3_from_type_total_on_supported (SqlType.decimal 9 2) ⟨0⟩ 5 (by decide)

/- Sanity checks: the embedding reproduces every assertion of the unit
test module of factory.rs (test_parse_decimal, test_parse_array_type,
test_parse_nullable_type, test_parse_fixed_string and the enum tests;
multi-character enum names are exercised through the claim theorems). -/

lemma test_parse_decimal :
    parse_decimal (str "Decimal(9, 4)") = some (9, 4, NoBits.N32)
    ∧ parse_decimal (str "Decimal(10, 4)") = some (10, 4, NoBits.N64)
    ∧ parse_decimal (str "Decimal(20, 4)") = none
    ∧ parse_decimal (str "Decimal(2000, 4)") = none
    ∧ parse_decimal (str "Decimal(3, 4)") = none
    ∧ parse_decimal (str "Decimal(20, -4)") = none
    ∧ parse_decimal (str "Decimal(0)") = none
    ∧ parse_decimal (str "Decimal(1, 2, 3)") = none
    ∧ parse_decimal (str "Decimal64(9)") = some (18, 9, NoBits.N64) := by
  refine ⟨?_, ?_, ?_, ?_, ?_, ?_, ?_, ?_, ?_⟩ <;> decide

lemma test_parse_array_type :
    parse_array_type (str "Array(UInt8)") = .ok (some (str "UInt8")) := by decide

lemma test_parse_nullable_type :
    parse_nullable_type (str "Nullable(Int8)") = .ok (some (str "Int8"))
    ∧ parse_nullable_type (str "Int8") = .ok none
    ∧ parse_nullable_type (str "Nullable(Nullable(Int8))") = .ok none := by
  refine ⟨?_, ?_, ?_⟩ <;> decide

lemma test_parse_fixed_string :
    parse_fixed_string (str "FixedString(8)") = .ok (some 8)
    ∧ parse_fixed_string (str "FixedString(zz)") = .ok none
    ∧ parse_fixed_string (str "Int8") = .ok none := by
  refine ⟨?_, ?_, ?_⟩ <;> decide

lemma test_parse_enum8 :
    parse_enum8 (str "Enum8 ('a' = 1, 'b' = 2)") = some [(str "a", 1), (str "b", 2)]
    ∧ parse_enum8 (str "Enum8 ('a' = 1)") = some [(str "a", 1)]
    ∧ parse_enum8 (str "Enum8 ( '' = 1, '' = 2)") = some [([], 1), ([], 2)]
    ∧ parse_enum8 (str "Enum8 ( '' = 1)") = some [([], 1)]
    ∧ parse_enum8 (str "Enum8 ('a' = 1, 'b' = 2,)") = none
    ∧ parse_enum8 (str "Enum8 ()") = none
    ∧ parse_enum8 (str "Enum8 ('a' =)") = none
    ∧ parse_enum8 (str "Enum8 ( = 1)") = none
    ∧ parse_enum8 (str "Enum8 ( , 'a' = 1)") = none := by
  refine ⟨?_, ?_, ?_, ?_, ?_, ?_, ?_, ?_, ?_⟩ <;> decide

lemma test_parse_enum16 :
    parse_enum16 (str "Enum16 ('a' = 1, 'b' = 2)") = some [(str "a", 1), (str "b", 2)]
    ∧ parse_enum16 (str "Enum16 ('a' = 1)") = some [(str "a", 1)]
    ∧ parse_enum16 (str "Enum16('a' = -128, 'b' = 0)")
        = some [(str "a", -128), (str "b", 0)]
    ∧ parse_enum16 (str "Enum16 ('a' = 1, 'b' = 2,)") = none
    ∧ parse_enum16 (str "Enum16 ()") = none
    ∧ parse_enum16 (str "Enum16 ('a' =)") = none
    ∧ parse_enum16 (str "Enum16 ( = 1)") = none
    ∧ parse_enum16 (str "Enum16 ( , 'a' = 1)") = none := by
  refine ⟨?_, ?_, ?_, ?_, ?_, ?_, ?_, ?_⟩ <;> decide

end Factory




